import Mathlib

/-!
Verification of the GitHub commit monitor (`github_crypto_monitor.py`).

Shallow embedding conventions:
* Python strings are Lean `String`s; where character-level reasoning is
  needed (escaping, chunking) we work on `List Char`, the character
  sequence of the Python string.
* The external summarization pipeline is an opaque parameter
  `summ : String → Int → Int → Option String` (text, max_length,
  min_length); `none` models the call raising.
* Network calls are modelled by outcome types enumerating what the
  `requests` call can do: raise `requests.RequestException`, or deliver a
  parsed JSON body.
* A Python exception that the function under scrutiny does not catch is
  modelled as `Except.error`; a normal return is `Except.ok`.
* The dict `last_commits` is modelled as a function `String → Option String`
  (`.get` is application, item assignment is pointwise update).
* The `TextBlob(commit_message).sentiment.polarity` value computed in
  `analyze_commit` is discarded by the source (never used in the returned
  triple), so it is not modelled.
-/

/-- One element of the `files` array of the commit-detail response:
`{"filename": ..., "status": ...}`. -/
structure FileEntry where
  filename : String
  status : String
deriving DecidableEq

/-- One element of the commit-list response: the fields of the JSON object
that the script reads (`sha`, `commit.message`, `html_url`, `url`). -/
structure Commit where
  sha : String
  message : String
  html_url : String
  url : String
deriving DecidableEq

/-- Python `len(text.split())`: `str.split()` with no separator splits on
whitespace runs and produces no empty fields. -/
def word_count (text : String) : Nat :=
  ((text.split Char.isWhitespace).filter (fun w => w ≠ "")).length

/-- Lines 43-45 of `summarize_text`:
`input_length = len(text.split())`,
`max_length = min(50, max(10, input_length - 1))`,
`min_length = max(5, max_length // 2)`.
Computed over `Int`, as Python does (`input_length - 1` may be `-1`).
Python `//` is floor division; on the values reached here both operands
are nonnegative, where Lean `Int` division agrees with it. -/
def summarize_bounds (text : String) : Int × Int :=
  let input_length : Int := word_count text
  let max_length : Int := min 50 (max 10 (input_length - 1))
  let min_length : Int := max 5 (max_length / 2)
  (max_length, min_length)

/-- The function `summarize_text`: call the summarizer with the computed
bounds; if the call raises (`none`), fall back to `text[:200]`. -/
def summarize_text (summ : String → Int → Int → Option String)
    (text : String) : String :=
  let b := summarize_bounds text
  match summ text b.1 b.2 with
  | some s => s
  | none => String.mk (text.data.take 200)

/-- The `bullish_terms` list of `analyze_commit`. -/
def bullish_terms : List String :=
  ["scaling", "upgrade", "performance", "optimization",
   "security", "merge", "enhancement", "feature"]

/-- The `bearish_terms` list of `analyze_commit`. -/
def bearish_terms : List String :=
  ["bug", "deprecated", "reverted", "removed",
   "issue", "vulnerability", "rollback", "fix"]

/-- Python `word in commit_message.lower()`: substring containment in the
lowercased message, on the character sequence. -/
def term_in_lower (msg : String) (w : String) : Bool :=
  decide (w.data <:+: msg.data.map Char.toLower)

/-- The function `analyze_commit(commit_message, commit_files)`: returns
`(summary, sentiment_label, explanation)`.  The source initializes the
label/explanation to the Neutral values and overwrites them in an
`if`/`elif`; that is the `if`/`else if`/`else` below.  The polarity score
it also computes is dead with respect to the returned triple. -/
def analyze_commit (summ : String → Int → Int → Option String)
    (commit_message : String) (commit_files : List FileEntry) :
    String × String × String :=
  let summary := summarize_text summ commit_message
  let added_files := (commit_files.filter (fun f => f.status == "added")).map (·.filename)
  let removed_files := (commit_files.filter (fun f => f.status == "removed")).map (·.filename)
  if bullish_terms.any (term_in_lower commit_message) || !added_files.isEmpty then
    (summary, "Bullish 📈", "New features or optimizations detected.")
  else if bearish_terms.any (term_in_lower commit_message) || !removed_files.isEmpty then
    (summary, "Bearish 📉", "Bug fixes, deprecations, or rollbacks detected.")
  else
    (summary, "Neutral ⚖️", "No strong indicators found.")

/-- The in-memory tracker `last_commits`, a dict from repository
identifier to last-seen sha, modelled as a partial map. -/
def Tracker : Type := String → Option String

/-- Initially `last_commits` is the empty dict: the state at process
start. -/
def last_commits_init : Tracker := fun _ => none

/-- Line 115, `last_commits.get(repo) != commit_sha`: the newness test. -/
def is_new (m : Tracker) (repo sha : String) : Bool :=
  m repo != some sha

/-- Line 116, `last_commits[repo] = commit_sha`: dict item assignment. -/
def record (m : Tracker) (repo sha : String) : Tracker :=
  fun r => if r = repo then some sha else m r

/-- The deduplication skeleton of the `track_repos` loop, at the
granularity of successful fetches.  Each event is the result of one
`get_latest_commit` call in configuration order across all cycles of one
continuous run: `none` when the fetch failed (the `if commit:` guard
skips the repo), `some (repo, sha)` when it returned a commit.  For each
fetched commit the loop runs lines 115-125: if the newness test passes it
records the sha and appends a notification for that commit to the batch.
Returns the final tracker and the appended `(repo, sha)` notifications in
order of appending (a notification is identified by the commit it is
about). -/
def trackRun : Tracker → List (Option (String × String)) →
    Tracker × List (String × String)
  | st, [] => (st, [])
  | st, none :: evs => trackRun st evs
  | st, some (repo, sha) :: evs =>
    if is_new st repo sha then
      let rest := trackRun (record st repo sha) evs
      (rest.1, (repo, sha) :: rest.2)
    else
      trackRun st evs

/-- The character class of the regex in `escape_markdown`
(line 82).  Written by code point; the characters are, in the order of
the class: underscore, asterisk, open bracket, close bracket, open paren,
close paren, tilde, backtick, greater-than, hash, plus, minus, equals,
pipe, open brace, close brace, period, exclamation mark.  Note the class
does not contain the backslash (code 92): the occurrences of `\` in the
pattern are regex escapes of `]`, `+`, `-`, not members. -/
def escape_chars : List Char :=
  [95, 42, 91, 93, 40, 41, 126, 96, 62, 35, 43, 45,
   61, 124, 123, 125, 46, 33].map Char.ofNat

/-- The substitution `re.sub(class, r"\\\g<0>", text)` acts on each
character: a character in the class is replaced by a backslash followed
by itself, any other character is left alone. -/
def escape_char (c : Char) : List Char :=
  if c ∈ escape_chars then [Char.ofNat 92, c] else [c]

/-- The function `escape_markdown`: apply the substitution across the
whole text. -/
def escape_markdown (text : List Char) : List Char :=
  text.flatMap escape_char

/-- The chunking in `send_telegram_message` (line 90):
`[safe_message[i:i+4000] for i in range(0, len(safe_message), 4000)]`,
i.e. successive slices of 4000 characters.  Each chunk is then sent by
one `bot.send_message` call, in list order. -/
def telegram_chunks : List Char → List (List Char)
  | [] => []
  | c :: cs => ((c :: cs).take 4000) :: telegram_chunks ((c :: cs).drop 4000)
termination_by l => l.length
decreasing_by simp [List.length_drop]; omega

/-- What one `requests.get` of the commit-list endpoint can do, as seen
by `get_latest_commit`: raise a `requests.RequestException` (connection
error, timeout, or the `raise_for_status` of an HTTP error status), or
deliver a parsed JSON body, a list of commits. -/
inductive FetchOutcome where
  | requestError : FetchOutcome
  | success : List Commit → FetchOutcome

/-- The function `get_latest_commit(repo)`: returns `response.json()[0]` on success and
`None` on `requests.RequestException`.  The indexing `[0]` of an empty
list raises `IndexError`, which the `except requests.RequestException`
clause does not catch, so it escapes the function. -/
def get_latest_commit : FetchOutcome → Except String (Option Commit)
  | .requestError => .ok none
  | .success [] => .error "IndexError"
  | .success (c :: _) => .ok (some c)

/-- What the per-commit detail fetch (line 112,
`requests.get(commit_details_url, headers=HEADERS).json()`) can do: raise
(connection error, timeout, non-JSON body), or deliver a parsed JSON
object whose `files` field is present (`some fs`) or absent (`none`). -/
inductive DetailOutcome where
  | raised : DetailOutcome
  | response : Option (List FileEntry) → DetailOutcome

/-- Lines 112-113: the changed-file list of the commit.
`commit_details.get("files", [])` substitutes `[]` for an absent key; a
raised exception has no handler anywhere in `track_repos`, so it escapes
to the top-level restart wrapper. -/
def get_commit_files : DetailOutcome → Except String (List FileEntry)
  | .raised => .error "RequestException"
  | .response none => .ok []
  | .response (some fs) => .ok fs

/-- The f-string appended to `messages` (lines 119-125). -/
def format_update (repo summary sentiment explanation commit_url : String) :
    String :=
  "🔔 **" ++ repo ++ " Update**\n" ++
  "📝 " ++ summary ++ "\n" ++
  "📊 Sentiment: " ++ sentiment ++ "\n" ++
  "🧐 Reason: " ++ explanation ++ "\n" ++
  "🔗 [View Commit](" ++ commit_url ++ ")"

/-- The body of the per-repo iteration of `track_repos` (lines 103-125)
for one repo in one cycle: fetch the latest commit (a raised exception
propagates); on a fetch failure (`None`) skip the repo; otherwise fetch
the commit detail (a raised exception propagates) and, if the sha is new,
record it and produce the formatted notification for the batch. -/
def process_repo (st : Tracker) (repo : String)
    (fetch : FetchOutcome) (detail : DetailOutcome)
    (summ : String → Int → Int → Option String) :
    Except String (Tracker × Option String) :=
  match get_latest_commit fetch with
  | .error e => .error e
  | .ok none => .ok (st, none)
  | .ok (some commit) =>
    match get_commit_files detail with
    | .error e => .error e
    | .ok commit_files =>
      if is_new st repo commit.sha then
        let r := analyze_commit summ commit.message commit_files
        .ok (record st repo commit.sha,
          some (format_update repo r.1 r.2.1 r.2.2 commit.html_url))
      else
        .ok (st, none)

/-- Modelled from the spec (§4.4 and the C6 claim): the escaping
relation the specification describes.  `MarkdownEscapeSpec s t` holds
when `t` is obtained from `s` by prefixing every occurrence of every
character of the control set with exactly one escape marker (a
backslash), altering no other character and preserving the relative
order of all original characters. -/
inductive MarkdownEscapeSpec : List Char → List Char → Prop
  | nil : MarkdownEscapeSpec [] []
  | esc {c : Char} {s t : List Char} : c ∈ escape_chars →
      MarkdownEscapeSpec s t →
      MarkdownEscapeSpec (c :: s) (Char.ofNat 92 :: c :: t)
  | keep {c : Char} {s t : List Char} : c ∉ escape_chars →
      MarkdownEscapeSpec s t →
      MarkdownEscapeSpec (c :: s) (c :: t)

/-- Spec-side reading of the bullish condition of the classifier: the
lowercased message has some bullish keyword as a substring, or some
changed file has status `added`. -/
abbrev SpecBullish (msg : String) (files : List FileEntry) : Prop :=
  (∃ w ∈ bullish_terms, w.data <:+: msg.data.map Char.toLower)
  ∨ ∃ f ∈ files, f.status = "added"

/-- Spec-side reading of the bearish condition of the classifier: the
lowercased message has some bearish keyword as a substring, or some
changed file has status `removed`. -/
abbrev SpecBearish (msg : String) (files : List FileEntry) : Prop :=
  (∃ w ∈ bearish_terms, w.data <:+: msg.data.map Char.toLower)
  ∨ ∃ f ∈ files, f.status = "removed"

/-! ## Theorems -/

/-- Claim C9: `is_new` (line 115, `last_commits.get(repo) != commit_sha`)
is true iff the tracker holds no entry for the repo or the stored sha
differs from the given one; it is true on the first call for a repo,
false on an immediate repeat with the same sha after `record`, and true
again after `record` with a different sha. -/
theorem is_new_characterization :
    (∀ (m : Tracker) (repo sha : String),
      is_new m repo sha = true ↔
        (m repo = none ∨ ∃ s, m repo = some s ∧ s ≠ sha))
    ∧ (∀ repo sha, is_new last_commits_init repo sha = true)
    ∧ (∀ (m : Tracker) (repo sha : String),
      is_new (record m repo sha) repo sha = false)
    ∧ (∀ (m : Tracker) (repo sha sha' : String), sha' ≠ sha →
      is_new (record m repo sha') repo sha = true) := by
  refine ⟨fun m repo sha => ?_, fun repo sha => ?_, fun m repo sha => ?_,
    fun m repo sha sha' h => ?_⟩
  · rw [is_new, bne_iff_ne]
    cases h : m repo <;> simp
  · rw [is_new, last_commits_init, bne_iff_ne]
    simp
  · rw [is_new, record]
    simp
  · rw [is_new, record, bne_iff_ne]
    simp [h]

/-- Witness for C9 (the scenario of the claim): fresh tracker, record,
repeat, record a different sha. -/
theorem is_new_characterization_witness :
    is_new last_commits_init "a/b" "111" = true
    ∧ is_new (record last_commits_init "a/b" "111") "a/b" "111" = false
    ∧ is_new (record last_commits_init "a/b" "222") "a/b" "111" = true :=
  ⟨is_new_characterization.2.1 "a/b" "111",
   is_new_characterization.2.2.1 last_commits_init "a/b" "111",
   is_new_characterization.2.2.2 last_commits_init "a/b" "111" "222"
     (by decide)⟩

/-- Claim C3: whenever the summarizer call fails, `summarize_text`
returns exactly the first 200 characters of the raw input, verbatim, and
is non-empty whenever the input is. -/
theorem summarize_text_fallback (summ : String → Int → Int → Option String)
    (text : String)
    (h : summ text (summarize_bounds text).1 (summarize_bounds text).2 = none) :
    summarize_text summ text = String.mk (text.data.take 200)
    ∧ (text ≠ "" → summarize_text summ text ≠ "") := by
  have hval : summarize_text summ text = String.mk (text.data.take 200) := by
    rw [summarize_text, h]
  refine ⟨hval, fun hne => ?_⟩
  rw [hval]
  intro hcontra
  apply hne
  have hdata : text.data.take 200 = [] := congrArg String.data hcontra
  rcases List.take_eq_nil_iff.mp hdata with h200 | hnil
  · exact absurd h200 (by decide)
  · cases text
    simp_all

/-- Witness for C3: a summarizer that always fails, on a concrete
message. -/
theorem summarize_text_fallback_witness :
    summarize_text (fun _ _ _ => none) "hello fix" =
      String.mk ("hello fix".data.take 200)
    ∧ ("hello fix" ≠ "" → summarize_text (fun _ _ _ => none) "hello fix" ≠ "") :=
  summarize_text_fallback (fun _ _ _ => none) "hello fix" rfl

/-- Claim C4 counterexample: on an empty commit list,
`response.json()[0]` raises an `IndexError` that the
`except requests.RequestException` clause does not catch, so
`get_latest_commit` does let an exception propagate past its boundary. -/
theorem get_latest_commit_empty_raises :
    get_latest_commit (.success []) = .error "IndexError" := rfl

/-- Claim C4 as amended: on network/HTTP failure `get_latest_commit`
returns Absent without raising, and on a response with a non-empty
commit list it returns the first commit; but on an empty commit list the
element access raises an uncaught `IndexError`. -/
theorem get_latest_commit_boundary :
    get_latest_commit .requestError = .ok none
    ∧ (∀ (c : Commit) (cs : List Commit),
        get_latest_commit (.success (c :: cs)) = .ok (some c))
    ∧ get_latest_commit (.success []) = .error "IndexError" :=
  ⟨rfl, fun _ _ => rfl, rfl⟩

/-- Claim C5 counterexample: when the per-commit detail fetch raises, no
handler exists in `track_repos`, so the per-repo processing step returns
the exception (it escapes to the top-level restart wrapper and the cycle
is aborted), rather than substituting an empty changed-file list. -/
theorem process_repo_detail_raises :
    process_repo last_commits_init "o/r"
      (.success [⟨"s1", "msg", "hurl", "url"⟩]) .raised (fun _ _ _ => none)
      = .error "RequestException" := rfl

/-- Claim C5 as amended: the graceful degradation only covers a detail
response whose body lacks a `files` key — there `[]` is substituted and
the commit is still processed exactly as with an explicit empty file
list (classified and, if new, notified); but when the detail call itself
raises, the exception propagates out of the per-repo step for every
fetched commit. -/
theorem process_repo_detail_fallback :
    (∀ (st : Tracker) (repo : String) (c : Commit) (cs : List Commit) summ,
      process_repo st repo (.success (c :: cs)) (.response none) summ
        = process_repo st repo (.success (c :: cs)) (.response (some [])) summ)
    ∧ (∀ (st : Tracker) (repo : String) (c : Commit) (cs : List Commit) summ,
      ∃ r, process_repo st repo (.success (c :: cs)) (.response none) summ
        = .ok r)
    ∧ (∀ (st : Tracker) (repo : String) (c : Commit) (cs : List Commit) summ,
      process_repo st repo (.success (c :: cs)) .raised summ
        = .error "RequestException") := by
  refine ⟨fun st repo c cs summ => rfl, fun st repo c cs summ => ?_,
    fun st repo c cs summ => rfl⟩
  simp only [process_repo, get_latest_commit, get_commit_files]
  split
  · exact ⟨_, rfl⟩
  · exact ⟨_, rfl⟩

/-- Claim C8: the summarization bounds are
`max_length = min(50, max(10, word_count - 1))` over exact integers and
`min_length = max(5, max_length / 2)` with integer halving, so
`5 ≤ min_length ≤ max_length ≤ 50` and `10 ≤ max_length` for every
input. -/
theorem summarize_bounds_clamped (text : String) :
    (summarize_bounds text).1 = min 50 (max 10 ((word_count text : Int) - 1))
    ∧ (summarize_bounds text).2 = max 5 ((summarize_bounds text).1 / 2)
    ∧ 5 ≤ (summarize_bounds text).2
    ∧ (summarize_bounds text).2 ≤ (summarize_bounds text).1
    ∧ (summarize_bounds text).1 ≤ 50
    ∧ 10 ≤ (summarize_bounds text).1 := by
  have h1 : (summarize_bounds text).1
      = min 50 (max 10 ((word_count text : Int) - 1)) := rfl
  have h2 : (summarize_bounds text).2
      = max 5 ((summarize_bounds text).1 / 2) := rfl
  have h10 : 10 ≤ (summarize_bounds text).1 := by
    rw [h1]
    exact le_min (by norm_num) (le_max_left _ _)
  have h50 : (summarize_bounds text).1 ≤ 50 := by
    rw [h1]
    exact min_le_left _ _
  refine ⟨h1, h2, ?_, ?_, h50, h10⟩
  · rw [h2]
    exact le_max_left _ _
  · rw [h2]
    refine max_le (by omega) ?_
    omega

/-- The `any(word in commit_message.lower() for word in terms)` test, as
an existential over the term list. -/
lemma any_term_iff (msg : String) (terms : List String) :
    terms.any (term_in_lower msg) = true
      ↔ ∃ w ∈ terms, w.data <:+: msg.data.map Char.toLower := by
  simp [term_in_lower, List.any_eq_true]

/-- Truthiness of the filtered filename list: non-empty iff some file
has the status. -/
lemma files_status_iff (files : List FileEntry) (st : String) :
    (!((files.filter (fun f => f.status == st)).map (·.filename)).isEmpty) = true
      ↔ ∃ f ∈ files, f.status = st := by
  simp [List.isEmpty_iff, List.filter_eq_nil_iff]

/-- The Bool condition of the bullish branch, as its spec reading. -/
lemma bull_cond_iff (msg : String) (files : List FileEntry) :
    (bullish_terms.any (term_in_lower msg)
      || !((files.filter (fun f => f.status == "added")).map (·.filename)).isEmpty)
        = true
      ↔ SpecBullish msg files := by
  rw [Bool.or_eq_true, any_term_iff, files_status_iff]

/-- The Bool condition of the bearish branch, as its spec reading. -/
lemma bear_cond_iff (msg : String) (files : List FileEntry) :
    (bearish_terms.any (term_in_lower msg)
      || !((files.filter (fun f => f.status == "removed")).map (·.filename)).isEmpty)
        = true
      ↔ SpecBearish msg files := by
  rw [Bool.or_eq_true, any_term_iff, files_status_iff]

/-- The label/rationale pair of `analyze_commit`, rewritten over the
spec-side conditions. -/
lemma analyze_commit_eq (summ : String → Int → Int → Option String)
    (msg : String) (files : List FileEntry) :
    (analyze_commit summ msg files).2 =
      if SpecBullish msg files then
        ("Bullish 📈", "New features or optimizations detected.")
      else if SpecBearish msg files then
        ("Bearish 📉", "Bug fixes, deprecations, or rollbacks detected.")
      else
        ("Neutral ⚖️", "No strong indicators found.") := by
  have hb := bull_cond_iff msg files
  have hr := bear_cond_iff msg files
  by_cases hB : SpecBullish msg files <;> by_cases hR : SpecBearish msg files <;>
    simp [analyze_commit, hb, hr, hB, hR]

/-- Claim C1: the classifier follows the first-match decision order: a
bullish-keyword substring match on the lowercased message or a non-empty
added-file list gives Bullish with its rationale; otherwise a
bearish-keyword substring match or a non-empty removed-file list gives
Bearish with its rationale; otherwise Neutral.  In particular a
non-empty added list forces Bullish regardless of bearish keywords, and
matching is substring matching. -/
theorem analyze_commit_decision_order
    (summ : String → Int → Int → Option String)
    (msg : String) (files : List FileEntry) :
    (SpecBullish msg files →
      (analyze_commit summ msg files).2
        = ("Bullish 📈", "New features or optimizations detected."))
    ∧ (¬SpecBullish msg files → SpecBearish msg files →
      (analyze_commit summ msg files).2
        = ("Bearish 📉", "Bug fixes, deprecations, or rollbacks detected."))
    ∧ (¬SpecBullish msg files → ¬SpecBearish msg files →
      (analyze_commit summ msg files).2
        = ("Neutral ⚖️", "No strong indicators found.")) := by
  refine ⟨fun hB => ?_, fun hB hR => ?_, fun hB hR => ?_⟩
  · rw [analyze_commit_eq, if_pos hB]
  · rw [analyze_commit_eq, if_neg hB, if_pos hR]
  · rw [analyze_commit_eq, if_neg hB, if_neg hR]

/-- Witness for C1: "fix" inside "prefix" triggers the bearish branch
(substring matching), and a non-empty added list forces Bullish over a
bearish keyword. -/
theorem analyze_commit_decision_order_witness :
    (analyze_commit (fun _ _ _ => none) "prefix handling" []).2
      = ("Bearish 📉", "Bug fixes, deprecations, or rollbacks detected.")
    ∧ (analyze_commit (fun _ _ _ => none) "fix bug" [⟨"f.py", "added"⟩]).2
      = ("Bullish 📈", "New features or optimizations detected.") :=
  ⟨(analyze_commit_decision_order (fun _ _ _ => none) "prefix handling" []).2.1
      (by decide) (by decide),
   (analyze_commit_decision_order (fun _ _ _ => none) "fix bug"
      [⟨"f.py", "added"⟩]).1 (by decide)⟩


/-- Claim C6 counterexample: the escaping leaves an input backslash
untouched — the backslash is not a member of the character class of the
regex, so escape markers present in the upstream input are not
themselves escaped. -/
theorem escape_markdown_backslash_unescaped :
    escape_markdown [Char.ofNat 92] = [Char.ofNat 92]
    ∧ Char.ofNat 92 ∉ escape_chars := by
  decide

/-- Claim C6 as amended: the escaping prefixes every occurrence of every
character of the fixed class with exactly one backslash, alters no other
character and preserves the relative order of all original characters —
but the backslash is not in the class, so upstream backslashes pass
through unescaped.  `escape_markdown` refines the spec relation
`MarkdownEscapeSpec`. -/
theorem escape_markdown_refines_spec (s : List Char) :
    MarkdownEscapeSpec s (escape_markdown s) := by
  induction s with
  | nil => exact MarkdownEscapeSpec.nil
  | cons c cs ih =>
    by_cases h : c ∈ escape_chars
    · have hc : escape_markdown (c :: cs)
          = Char.ofNat 92 :: c :: escape_markdown cs := by
        simp [escape_markdown, escape_char, h]
      rw [hc]
      exact MarkdownEscapeSpec.esc h ih
    · have hc : escape_markdown (c :: cs) = c :: escape_markdown cs := by
        simp [escape_markdown, escape_char, h]
      rw [hc]
      exact MarkdownEscapeSpec.keep h ih

/-- Unfolding equation of `telegram_chunks` on a non-empty message. -/
lemma telegram_chunks_ne_nil_eq (l : List Char) (h : l ≠ []) :
    telegram_chunks l = l.take 4000 :: telegram_chunks (l.drop 4000) := by
  cases l with
  | nil => exact absurd rfl h
  | cons c cs => rw [telegram_chunks]

/-- Every chunk produced by the splitting has at most 4000 characters. -/
lemma telegram_chunks_le (s : List Char) :
    ∀ ch ∈ telegram_chunks s, ch.length ≤ 4000 := by
  induction s using telegram_chunks.induct with
  | case1 => simp [telegram_chunks]
  | case2 c cs ih =>
    rw [telegram_chunks_ne_nil_eq _ (by simp)]
    intro ch hch
    rcases List.mem_cons.mp hch with h | h
    · subst h
      simp [List.length_take]
    · exact ih ch h

/-- Concatenating the chunks in order restores the message. -/
lemma telegram_chunks_flatten (s : List Char) :
    (telegram_chunks s).flatten = s := by
  induction s using telegram_chunks.induct with
  | case1 => simp [telegram_chunks]
  | case2 c cs ih =>
    rw [telegram_chunks_ne_nil_eq _ (by simp), List.flatten_cons, ih,
      List.take_append_drop]

/-- The number of chunks is the length divided by 4000, rounded up. -/
lemma telegram_chunks_count (s : List Char) :
    (telegram_chunks s).length = (s.length + 3999) / 4000 := by
  induction s using telegram_chunks.induct with
  | case1 => simp [telegram_chunks]
  | case2 c cs ih =>
    rw [telegram_chunks_ne_nil_eq _ (by simp), List.length_cons, ih,
      List.length_drop]
    simp only [List.length_cons]
    omega

/-- Claim C7: the notifier splits the post-escape message into
contiguous chunks of at most 4000 characters whose concatenation in send
order is the message; a 9000-character message gives exactly 3 chunks. -/
theorem send_telegram_chunks (s : List Char) :
    (∀ ch ∈ telegram_chunks s, ch.length ≤ 4000)
    ∧ (telegram_chunks s).flatten = s
    ∧ (s.length = 9000 → (telegram_chunks s).length = 3) := by
  refine ⟨telegram_chunks_le s, telegram_chunks_flatten s, fun h9 => ?_⟩
  rw [telegram_chunks_count, h9]

/-- Witness for C7: a concrete 9000-character message. -/
theorem send_telegram_chunks_witness :
    (List.replicate 9000 'a').length = 9000
    ∧ (∀ ch ∈ telegram_chunks (List.replicate 9000 'a'), ch.length ≤ 4000)
    ∧ (telegram_chunks (List.replicate 9000 'a')).flatten
        = List.replicate 9000 'a'
    ∧ (telegram_chunks (List.replicate 9000 'a')).length = 3 :=
  ⟨by rw [List.length_replicate], (send_telegram_chunks _).1,
   (send_telegram_chunks _).2.1,
   (send_telegram_chunks _).2.2 (by rw [List.length_replicate])⟩

/-- Claim C2 counterexample: the tracker stores only the last-seen sha,
so the fetch-result sequence a, b, a for one repo produces two
notifications for the pair `("r", "a")` within one continuous run — the
per-lifetime at-most-once invariant fails. -/
theorem dedup_not_per_lifetime :
    ((trackRun last_commits_init
      [some ("r", "a"), some ("r", "b"), some ("r", "a")]).2).count ("r", "a")
      = 2 := by
  decide

/-- Strengthened invariant for the dedup loop: prefixing the per-repo
emitted sha sequence with the tracker's current entry for that repo
gives a list in which adjacent entries always differ. -/
lemma trackRun_filter_chain (evs : List (Option (String × String))) :
    ∀ (st : Tracker) (repo : String),
      List.Chain' (fun a b => a ≠ b)
        (st repo :: ((trackRun st evs).2.filter (fun p => p.1 == repo)).map
          (fun p => some p.2)) := by
  induction evs with
  | nil =>
    intro st repo
    simp [trackRun]
  | cons ev evs ih =>
    intro st repo
    match ev with
    | none =>
      rw [trackRun]
      exact ih st repo
    | some (r, s) =>
      rw [trackRun]
      by_cases hn : is_new st r s
      · rw [if_pos hn]
        by_cases hr : r = repo
        · subst hr
          have hrec : record st r s r = some s := by
            simp [record]
          have hne : st r ≠ some s := by
            have := (bne_iff_ne (a := st r) (b := some s)).mp hn
            exact this
          have ih' := ih (record st r s) r
          rw [hrec] at ih'
          simp only [List.filter_cons, beq_self_eq_true, if_pos, List.map_cons]
          exact List.chain'_cons.mpr ⟨hne, ih'⟩
        · have hrec : record st r s repo = st repo :=
            if_neg (fun h => hr h.symm)
          have ih' := ih (record st r s) repo
          rw [hrec] at ih'
          simpa [List.filter_cons, hr] using ih'
      · rw [if_neg hn]
        exact ih st repo

/-- Claim C2 as amended: a notification for `(repo, sha)` is appended
only when the tracker's current entry for the repo differs from that
sha, and the entry is then set to it; hence in any run the shas of the
notifications for one repo never repeat in immediate succession — the
deduplication is against the last-seen sha only, not at-most-once per
process lifetime. -/
theorem dedup_adjacent_distinct (st : Tracker)
    (evs : List (Option (String × String))) (repo : String) :
    List.Chain' (fun a b => a ≠ b)
      (((trackRun st evs).2.filter (fun p => p.1 == repo)).map Prod.snd) := by
  have h := (trackRun_filter_chain evs st repo).tail
  simp only [List.tail_cons] at h
  rw [List.chain'_map] at h ⊢
  exact h.imp fun a b hab => fun e => hab (by rw [e])

/-- The escaping distributes over concatenation. -/
lemma escape_markdown_append (l₁ l₂ : List Char) :
    escape_markdown (l₁ ++ l₂) = escape_markdown l₁ ++ escape_markdown l₂ := by
  simp [escape_markdown]

/-- The escaping leaves a run of the letter `a` unchanged. -/
lemma escape_markdown_replicate_a (n : Nat) :
    escape_markdown (List.replicate n 'a') = List.replicate n 'a' := by
  induction n with
  | zero => rfl
  | succ n ih =>
    have ha : escape_char 'a' = ['a'] := by decide
    calc escape_markdown ('a' :: List.replicate n 'a')
        = escape_char 'a' ++ escape_markdown (List.replicate n 'a') := by
          simp [escape_markdown]
      _ = 'a' :: List.replicate n 'a' := by rw [ha, ih]; rfl
      _ = List.replicate (n + 1) 'a' := (List.replicate_succ 'a' n).symm

/-- Claim C10: a message exists whose escape-then-split pipeline puts
the fixed 4000-character boundary inside an escape pair: the first
delivered chunk ends with the bare escape backslash and the escaped
character (here the period, a member of the class) begins the next
chunk, even though the concatenation of the chunks is the escaped
message. -/
theorem chunk_boundary_splits_escape_pair :
    ∃ (msg chunk₁ chunk₂ : List Char),
      telegram_chunks (escape_markdown msg) = [chunk₁, chunk₂]
      ∧ chunk₁.getLast? = some (Char.ofNat 92)
      ∧ chunk₂ = [Char.ofNat 46]
      ∧ Char.ofNat 46 ∈ escape_chars := by
  refine ⟨List.replicate 3999 'a' ++ [Char.ofNat 46],
    List.replicate 3999 'a' ++ [Char.ofNat 92], [Char.ofNat 46],
    ?_, List.getLast?_concat _, rfl, by decide⟩
  have hesc : escape_markdown (List.replicate 3999 'a' ++ [Char.ofNat 46])
      = List.replicate 3999 'a' ++ [Char.ofNat 92, Char.ofNat 46] := by
    rw [escape_markdown_append, escape_markdown_replicate_a,
      show escape_markdown [Char.ofNat 46] = [Char.ofNat 92, Char.ofNat 46]
        from by decide]
  rw [hesc]
  have hlen : (List.replicate 3999 'a' (α := Char)).length = 3999 :=
    List.length_replicate 3999 'a'
  have htake : (List.replicate 3999 'a' ++ [Char.ofNat 92, Char.ofNat 46]).take 4000
      = List.replicate 3999 'a' ++ [Char.ofNat 92] := by
    rw [List.take_append_eq_append_take, List.take_of_length_le (by rw [hlen]; norm_num),
      hlen]
    norm_num
  have hdrop : (List.replicate 3999 'a' ++ [Char.ofNat 92, Char.ofNat 46]).drop 4000
      = [Char.ofNat 46] := by
    rw [List.drop_append_eq_append_drop, List.drop_eq_nil_of_le (by rw [hlen]; norm_num),
      hlen]
    norm_num
  have hne : (List.replicate 3999 'a' ++ [Char.ofNat 92, Char.ofNat 46]) ≠ [] := by
    intro h
    have hl := congrArg List.length h
    rw [List.length_append, hlen] at hl
    exact absurd hl (by norm_num)
  have hnil : telegram_chunks [] = [] := by rw [telegram_chunks]
  rw [telegram_chunks_ne_nil_eq _ hne, htake, hdrop,
    telegram_chunks_ne_nil_eq [Char.ofNat 46] (by norm_num),
    show ([Char.ofNat 46] : List Char).take 4000 = [Char.ofNat 46] from rfl,
    show ([Char.ofNat 46] : List Char).drop 4000 = [] from rfl, hnil]
